import Mathlib

/-!
Shallow embedding of the job-lifecycle core of the KaamSetu quickBackend
repository (src/controllers/jobController.js and src/models/Review.js),
with theorems checking the natural-language specification against it.

Documents are modelled as association lists keyed by `Nat` ids; Mongo
primitives (`findById`, `findByIdAndUpdate`, `findByIdAndDelete`, the
conditional `findOneAndUpdate` used by the claim protocol) become pure
functions on those lists.  HTTP handlers become functions from a system
state and request parameters to an HTTP status code and a new state.
-/

set_option autoImplicit false

namespace QuickBackend

/-- Job lifecycle states stored in the `status` field of a Job document. -/
inductive JobStatus where
  | posted
  | assigned
  | active
  | completed
deriving DecidableEq, Repr

/-- A Job document as used by jobController.js.  Fields that no lifecycle
logic reads or writes (image, payment, address contents) are omitted;
timestamps are abstract `Nat` instants. -/
structure Job where
  clientId : Nat
  workerId : Option Nat
  title : String
  description : String
  skill : String
  urgency : Bool
  status : JobStatus
  completionOTP : Option String
  assignedAt : Option Nat
  startedAt : Option Nat
  completedAt : Option Nat
  createdAt : Nat
deriving DecidableEq, Repr

/-- The slice of a Worker document the job controllers read:
`skills`, `completedJobs`, and whether `worker.address.location` holds
valid coordinates (the `isValidCoordinates` test in getAvailableJobs). -/
structure Worker where
  skills : List String
  completedJobs : Nat
  hasValidLocation : Bool
deriving DecidableEq, Repr

/-- The `reviewType` enum of src/models/Review.js. -/
inductive ReviewType where
  | clientToWorker
  | workerToClient
deriving DecidableEq, Repr

/-- A Review document (src/models/Review.js).  `rating` is a JS number,
modelled as a rational. -/
structure Review where
  clientId : Nat
  workerId : Nat
  jobId : Nat
  reviewType : ReviewType
  rating : Rat
  review : String
deriving DecidableEq, Repr

/-- The mongoose validators of reviewSchema: rating min 1, max 5,
review maxlength 500.  `save()` rejects a document violating them. -/
def reviewSchemaOk (r : Review) : Bool :=
  decide (1 ≤ r.rating ∧ r.rating ≤ 5 ∧ r.review.length ≤ 500)

/-- The persistent state the job controllers touch. -/
structure SysState where
  jobs : List (Nat × Job)
  workers : List (Nat × Worker)
  reviews : List Review
deriving DecidableEq, Repr

/-- Mongoose `findById` over a collection keyed by id (first match). -/
def findById {α : Type} : List (Nat × α) → Nat → Option α
  | [], _ => none
  | (k, v) :: rest, i => if k = i then some v else findById rest i

/-- The write of `findByIdAndUpdate`: replace the document with that id. -/
def updateById {α : Type} : List (Nat × α) → Nat → α → List (Nat × α)
  | [], _, _ => []
  | (k, v) :: rest, i, v2 =>
    if k = i then (k, v2) :: rest else (k, v) :: updateById rest i v2

/-- `findByIdAndDelete`: remove the document with that id. -/
def deleteById {α : Type} : List (Nat × α) → Nat → List (Nat × α)
  | [], _ => []
  | (k, v) :: rest, i =>
    if k = i then deleteById rest i else (k, v) :: deleteById rest i

/-- `Job.findOne({ _id: jobId, clientId })`. -/
def findByIdAndClient (db : List (Nat × Job)) (jobId clientId : Nat) : Option Job :=
  match findById db jobId with
  | some j => if j.clientId = clientId then some j else none
  | none => none

/-- `Job.findOne({ _id: jobId, workerId })`. -/
def findByIdAndWorker (db : List (Nat × Job)) (jobId workerId : Nat) : Option Job :=
  match findById db jobId with
  | some j => if j.workerId = some workerId then some j else none
  | none => none

/-- `Job.find({ workerId, status: { $in: [assigned, active] } }).length > 0`,
the single-active-job pre-check of acceptJob. -/
def hasActiveJob (db : List (Nat × Job)) (workerId : Nat) : Bool :=
  db.any fun p =>
    decide (p.2.workerId = some workerId ∧
      (p.2.status = JobStatus.assigned ∨ p.2.status = JobStatus.active))

/-- The atomic conditional update of acceptJob:
`Job.findOneAndUpdate({ _id, status: posted, workerId: null },
{ workerId, status: assigned }, { new: true })`.
Returns the updated document when the match predicate held, together with
the collection after the (indivisible) write. -/
def claimJob (db : List (Nat × Job)) (jobId workerId : Nat) :
    Option Job × List (Nat × Job) :=
  match findById db jobId with
  | none => (none, db)
  | some j =>
    if j.status = JobStatus.posted ∧ j.workerId = none then
      let j2 := { j with workerId := some workerId, status := JobStatus.assigned }
      (some j2, updateById db jobId j2)
    else (none, db)

/-- The compensating write of acceptJob:
`Job.findByIdAndUpdate(jobId, { workerId: null, status: posted })`. -/
def rollbackClaim (db : List (Nat × Job)) (jobId : Nat) : List (Nat × Job) :=
  match findById db jobId with
  | none => db
  | some j => updateById db jobId { j with workerId := none, status := JobStatus.posted }

/-- POST /api/jobs/:jobId/accept (acceptJob in jobController.js).
Returns the HTTP status code and the state after the request. -/
def acceptJob (st : SysState) (workerId jobId : Nat) : Nat × SysState :=
  if hasActiveJob st.jobs workerId then (400, st)
  else
    match claimJob st.jobs jobId workerId with
    | (none, _) =>
      match findById st.jobs jobId with
      | none => (404, st)
      | some existing =>
        if existing.workerId ≠ none then (409, st) else (400, st)
    | (some job, jobs2) =>
      match findById st.workers workerId with
      | none => (404, { st with jobs := rollbackClaim jobs2 jobId })
      | some w =>
        if w.skills.contains job.skill then (200, { st with jobs := jobs2 })
        else (400, { st with jobs := rollbackClaim jobs2 jobId })

/-- The `address` value of a create request after JSON parsing:
a `city` string and possibly a `location` object.  A missing or empty
`city` is falsy in JS. -/
structure Address where
  city : Option String
  hasLocation : Bool
deriving DecidableEq, Repr

/-- POST /api/jobs/create (createJob).  `newId` is the id Mongo assigns,
`now` the creation instant.  Image upload and the simulated payment only
touch fields outside the model. -/
def createJob (st : SysState) (clientId : Nat) (skill title description : String)
    (urgency : Bool) (address : Option Address) (newId now : Nat) : Nat × SysState :=
  if skill = "" ∨ title = "" ∨ description = "" then (400, st)
  else
    match address with
    | none => (400, st)
    | some a =>
      if (a.city = none ∨ a.city = some "") ∧ a.hasLocation = false then (400, st)
      else
        let job : Job :=
          { clientId := clientId, workerId := none, title := title,
            description := description, skill := skill, urgency := urgency,
            status := JobStatus.posted, completionOTP := none,
            assignedAt := none, startedAt := none, completedAt := none,
            createdAt := now }
        (200, { st with jobs := (newId, job) :: st.jobs })

/-- PUT /api/jobs/:jobId/start (startJob). -/
def startJob (st : SysState) (clientId jobId now : Nat) : Nat × SysState :=
  match findByIdAndClient st.jobs jobId clientId with
  | none => (404, st)
  | some j =>
    if j.status ≠ JobStatus.assigned then (400, st)
    else
      let jobs2 := updateById st.jobs jobId
        { j with status := JobStatus.active, startedAt := some now }
      (200, { st with jobs := jobs2 })

/-- POST /api/jobs/:jobId/complete (completeJob).  `otp` is the request
body field; `none` models an absent field and `some ""` the other JS-falsy
string value, both rejected by the `!otp` guard. -/
def completeJob (st : SysState) (clientId jobId : Nat) (otp : Option String)
    (now : Nat) : Nat × SysState :=
  match otp with
  | none => (400, st)
  | some code =>
    if code = "" then (400, st)
    else
      match findByIdAndClient st.jobs jobId clientId with
      | none => (404, st)
      | some j =>
        if j.status ≠ JobStatus.active then (400, st)
        else
          match j.completionOTP with
          | none => (400, st)
          | some stored =>
            if stored = "" then (400, st)
            else if stored ≠ code then (400, st)
            else
              let j2 := { j with status := JobStatus.completed,
                                 completedAt := some now, completionOTP := none }
              let jobs2 := updateById st.jobs jobId j2
              let workers2 :=
                match j.workerId with
                | some wid =>
                  match findById st.workers wid with
                  | some w => updateById st.workers wid
                      { w with completedJobs := w.completedJobs + 1 }
                  | none => st.workers
                | none => st.workers
              (200, { st with jobs := jobs2, workers := workers2 })

/-- The 6-digit code `Math.floor(100000 + Math.random() * 900000)` as a
string, with the random draw abstracted into `rnd`. -/
def genOTP (rnd : Nat) : String := toString (100000 + rnd % 900000)

/-- GET /api/jobs/:jobId/completion-otp (getCompletionOTP). -/
def getCompletionOTP (st : SysState) (workerId jobId rnd : Nat) : Nat × SysState :=
  match findByIdAndWorker st.jobs jobId workerId with
  | none => (404, st)
  | some j =>
    if j.status ≠ JobStatus.active then (400, st)
    else
      let jobs2 := updateById st.jobs jobId { j with completionOTP := some (genOTP rnd) }
      (200, { st with jobs := jobs2 })

/-- PUT /api/jobs/:jobId/cancel (cancelJob, client side): hard delete,
allowed only from posted or assigned. -/
def cancelJob (st : SysState) (clientId jobId : Nat) : Nat × SysState :=
  match findByIdAndClient st.jobs jobId clientId with
  | none => (404, st)
  | some j =>
    if j.status = JobStatus.posted ∨ j.status = JobStatus.assigned then
      (200, { st with jobs := deleteById st.jobs jobId })
    else (400, st)

/-- PUT /api/jobs/:jobId/cancel-worker (cancelJobByWorker): reset the job
to the claimable pool, allowed only from assigned or active. -/
def cancelJobByWorker (st : SysState) (workerId jobId : Nat) : Nat × SysState :=
  match findByIdAndWorker st.jobs jobId workerId with
  | none => (404, st)
  | some j =>
    if j.status ≠ JobStatus.assigned ∧ j.status ≠ JobStatus.active then (400, st)
    else
      let jobs2 := updateById st.jobs jobId
        { j with status := JobStatus.posted, workerId := none,
                 assignedAt := none, completionOTP := none }
      (200, { st with jobs := jobs2 })

/-- POST /api/jobs/:jobId/rate-worker (rateWorker).  `rating` is the JS
body field: `none` models an absent value and the `!rating` guard also
rejects the falsy number 0. -/
def rateWorker (st : SysState) (clientId jobId : Nat) (rating : Option Rat)
    (review : Option String) : Nat × SysState :=
  match rating with
  | none => (400, st)
  | some r =>
    if r = 0 ∨ r < 1 ∨ r > 5 then (400, st)
    else
      match findByIdAndClient st.jobs jobId clientId with
      | none => (404, st)
      | some j =>
        if j.status ≠ JobStatus.completed then (400, st)
        else
          match j.workerId with
          | none => (400, st)
          | some wid =>
            if st.reviews.any (fun rv =>
                decide (rv.jobId = jobId ∧ rv.clientId = clientId ∧
                  rv.reviewType = ReviewType.clientToWorker)) then (400, st)
            else
              if reviewSchemaOk
                  { clientId := clientId, workerId := wid, jobId := jobId,
                    reviewType := ReviewType.clientToWorker, rating := r,
                    review := review.getD "" } then
                (200, { st with reviews :=
                  { clientId := clientId, workerId := wid, jobId := jobId,
                    reviewType := ReviewType.clientToWorker, rating := r,
                    review := review.getD "" } :: st.reviews })
              else (500, st)

/-- POST /api/jobs/:jobId/rate-client (rateClient). -/
def rateClient (st : SysState) (workerId jobId : Nat) (rating : Option Rat)
    (review : Option String) : Nat × SysState :=
  match rating with
  | none => (400, st)
  | some r =>
    if r = 0 ∨ r < 1 ∨ r > 5 then (400, st)
    else
      match findByIdAndWorker st.jobs jobId workerId with
      | none => (404, st)
      | some j =>
        if j.status ≠ JobStatus.completed then (400, st)
        else
          if st.reviews.any (fun rv =>
              decide (rv.jobId = jobId ∧ rv.workerId = workerId ∧
                rv.reviewType = ReviewType.workerToClient)) then (400, st)
          else
            if reviewSchemaOk
                { clientId := j.clientId, workerId := workerId, jobId := jobId,
                  reviewType := ReviewType.workerToClient, rating := r,
                  review := review.getD "" } then
              (200, { st with reviews :=
                { clientId := j.clientId, workerId := workerId, jobId := jobId,
                  reviewType := ReviewType.workerToClient, rating := r,
                  review := review.getD "" } :: st.reviews })
            else (500, st)

/-- One entry of the getAvailableJobs response: the job id, the document,
and the annotated `distance` field. -/
structure JobOut where
  id : Nat
  job : Job
  distance : Option Rat
deriving DecidableEq, Repr

/-- The skill part of the Mongo query built by getAvailableJobs.  An empty
string is falsy in JS, so it applies no filter. -/
def skillFilter (skill : Option String) (workerSkills : List String) (j : Job) : Bool :=
  match skill with
  | none => true
  | some s =>
    if s = "" then true
    else if s ≠ "All Services" ∧ s ≠ "For you" then decide (j.skill = s)
    else if s = "For you" then workerSkills.contains j.skill
    else true

/-- The urgency part of the query: only the literal string true filters. -/
def urgencyFilter (urgency : Option String) (j : Job) : Bool :=
  match urgency with
  | some u => if u = "true" then j.urgency else true
  | none => true

/-- Newest first on raw documents: the `.sort` with createdAt descending
applied by the Mongo query. -/
def dbRecLe (a b : Nat × Job) : Bool := decide (b.2.createdAt ≤ a.2.createdAt)

/-- Newest first on response entries: the default branch of the in-memory
comparator of getAvailableJobs. -/
def recLe (a b : JobOut) : Bool := decide (b.job.createdAt ≤ a.job.createdAt)

/-- The distance branch of the comparator: closest first, entries without
a distance last, ties among those broken by recency. -/
def distLe (a b : JobOut) : Bool :=
  match a.distance, b.distance with
  | none, none => decide (b.job.createdAt ≤ a.job.createdAt)
  | none, some _ => false
  | some _, none => true
  | some x, some y => decide (x ≤ y)

/-- The comparator passed to `.sort` by getAvailableJobs, selected by the
`sortBy` query parameter. -/
def availLe (sortQ : String) (a b : JobOut) : Bool :=
  if sortQ = "distance" then distLe a b else recLe a b

/-- `distances[job._id] || null`: a missing or zero distance becomes null. -/
def annotateDistance (dist : Nat → Option Rat) (p : Nat × Job) : JobOut :=
  { id := p.1, job := p.2,
    distance :=
      match dist p.1 with
      | some d => if d = 0 then none else some d
      | none => none }

/-- GET /api/jobs/available (getAvailableJobs).  Query-string fields arrive
as `Option` values and take the destructuring defaults of the code
(page 1, limit 50, maxDistance 25, sortBy distance).  The distance
collaborator `calculateJobDistances` enters as the map `dist`.
Returns the HTTP status and the returned page of annotated jobs. -/
def getAvailableJobs (st : SysState) (workerId : Nat)
    (page limit : Option Nat) (skill : Option String) (maxDistance : Option Rat)
    (urgency : Option String) (sortBy : Option String)
    (dist : Nat → Option Rat) : Nat × List JobOut :=
  match findById st.workers workerId with
  | none => (404, [])
  | some w =>
    let pageN := page.getD 1
    let limitN := limit.getD 50
    let maxD := maxDistance.getD 25
    let sortQ := sortBy.getD "distance"
    let matching := st.jobs.filter fun p =>
      decide (p.2.status = JobStatus.posted ∧ p.2.workerId = none) &&
        skillFilter skill w.skills p.2 && urgencyFilter urgency p.2
    let jobs := List.insertionSort (fun a b => dbRecLe a b = true) matching
    let withDistance :=
      if w.hasValidLocation then
        let annotated := jobs.map (annotateDistance dist)
        let filtered := annotated.filter fun o =>
          match o.distance with
          | none => true
          | some d => decide (d ≤ maxD)
        List.insertionSort (fun a b => availLe sortQ a b = true) filtered
      else
        jobs.map fun p => { id := p.1, job := p.2, distance := none }
    (200, (withDistance.drop ((pageN - 1) * limitN)).take limitN)

/-- A set of accept requests that race on the same job, reduced to the
order in which their atomic conditional updates hit the store: each worker
in the list executes `claimJob` once, against the state left by the
previous one.  Returns the success flag of every request and the final
collection. -/
def runClaims (jobId : Nat) : List (Nat × Job) → List Nat → List Bool × List (Nat × Job)
  | db, [] => ([], db)
  | db, w :: ws =>
    let r := claimJob db jobId w
    let rest := runClaims jobId r.2 ws
    (r.1.isSome :: rest.1, rest.2)

/-- A per-document property holding across a whole collection. -/
def AllJobs (P : Job → Prop) (db : List (Nat × Job)) : Prop :=
  ∀ p ∈ db, P p.2

/-- Spec invariant: `completionOTP` is non-null only while status is
active. -/
def OTPInv (db : List (Nat × Job)) : Prop :=
  AllJobs (fun j => j.completionOTP ≠ none → j.status = JobStatus.active) db

/-- Spec invariant: `workerId` is non-null iff status is one of
assigned, active, completed. -/
def WorkerLinkInv (db : List (Nat × Job)) : Prop :=
  AllJobs (fun j => j.workerId ≠ none ↔
    (j.status = JobStatus.assigned ∨ j.status = JobStatus.active ∨
      j.status = JobStatus.completed)) db

instance (db : List (Nat × Job)) : Decidable (OTPInv db) :=
  List.decidableBAll _ db

instance (db : List (Nat × Job)) : Decidable (WorkerLinkInv db) :=
  List.decidableBAll _ db

/-! ### Concrete fixtures used to evaluate the theorems on closed inputs -/

def sampleJob : Job :=
  { clientId := 1, workerId := none, title := "t", description := "d",
    skill := "plumber", urgency := false, status := JobStatus.posted,
    completionOTP := none, assignedAt := none, startedAt := none,
    completedAt := none, createdAt := 1 }

def samplePlumber : Worker :=
  { skills := ["plumber"], completedJobs := 0, hasValidLocation := true }

def sampleElectrician : Worker :=
  { skills := ["electrician"], completedJobs := 0, hasValidLocation := false }

def sampleState : SysState :=
  { jobs := [(5, sampleJob)],
    workers := [(1, samplePlumber), (2, sampleElectrician)], reviews := [] }

def sampleActiveJob : Job :=
  { sampleJob with workerId := some 1, status := JobStatus.active,
                   completionOTP := some "123456" }

def sampleActiveState : SysState :=
  { sampleState with jobs := [(5, sampleActiveJob)] }

def sampleCompletedJob : Job :=
  { sampleJob with workerId := some 1, status := JobStatus.completed }

def sampleCompletedState : SysState :=
  { sampleState with jobs := [(5, sampleCompletedJob)] }

/-- The JS number 2.5, a non-integer rating inside the guard range. -/
def ratTwoPointFive : Rat := ⟨5, 2, by decide, by decide⟩

/-- A second posted job, newer than `sampleJob` (createdAt 2 versus 1). -/
def newerJob : Job := { sampleJob with createdAt := 2 }

/-- Two posted jobs and a worker with valid coordinates: job 10 is older
and closer, job 11 newer and farther. -/
def twoJobState : SysState :=
  { jobs := [(10, sampleJob), (11, newerJob)],
    workers := [(1, samplePlumber)], reviews := [] }

/-- Distance collaborator for `twoJobState`: job 10 at 1 km, job 11 at 2 km. -/
def twoJobDist : Nat → Option Rat :=
  fun i => if i = 10 then some 1 else if i = 11 then some 2 else none

/-! ### Lemmas about the document-store primitives -/

theorem findById_cons {α : Type} (k : Nat) (v : α) (rest : List (Nat × α)) (i : Nat) :
    findById ((k, v) :: rest) i = if k = i then some v else findById rest i := rfl

theorem updateById_cons {α : Type} (k : Nat) (v : α) (rest : List (Nat × α)) (i : Nat) (v2 : α) :
    updateById ((k, v) :: rest) i v2 =
      if k = i then (k, v2) :: rest else (k, v) :: updateById rest i v2 := rfl

theorem deleteById_cons {α : Type} (k : Nat) (v : α) (rest : List (Nat × α)) (i : Nat) :
    deleteById ((k, v) :: rest) i =
      if k = i then deleteById rest i else (k, v) :: deleteById rest i := rfl

theorem findById_updateById_self {α : Type} (db : List (Nat × α)) (i : Nat) (v : α) :
    findById (updateById db i v) i = (findById db i).map fun _ => v := by
  induction db with
  | nil => rfl
  | cons p rest ih =>
    obtain ⟨k, u⟩ := p
    by_cases h : k = i <;>
      simp [findById_cons, updateById_cons, h, ih]

theorem findById_updateById_ne {α : Type} (db : List (Nat × α)) (i j : Nat) (v : α)
    (h : j ≠ i) : findById (updateById db i v) j = findById db j := by
  induction db with
  | nil => rfl
  | cons p rest ih =>
    obtain ⟨k, u⟩ := p
    by_cases hk : k = i
    · subst hk
      have hkj : ¬k = j := fun hkj => h hkj.symm
      simp [findById_cons, updateById_cons, hkj]
    · simp [findById_cons, updateById_cons, hk, ih]

theorem findById_deleteById_self {α : Type} (db : List (Nat × α)) (i : Nat) :
    findById (deleteById db i) i = none := by
  induction db with
  | nil => rfl
  | cons p rest ih =>
    obtain ⟨k, u⟩ := p
    by_cases h : k = i <;> simp [findById_cons, deleteById_cons, h, ih]

theorem findById_deleteById_ne {α : Type} (db : List (Nat × α)) (i j : Nat)
    (h : j ≠ i) : findById (deleteById db i) j = findById db j := by
  induction db with
  | nil => rfl
  | cons p rest ih =>
    obtain ⟨k, u⟩ := p
    by_cases hk : k = i
    · subst hk
      have hkj : ¬k = j := fun hkj => h hkj.symm
      simp [findById_cons, deleteById_cons, hkj, ih]
    · simp [findById_cons, deleteById_cons, hk, ih]

theorem findById_mem {α : Type} {db : List (Nat × α)} {i : Nat} {v : α}
    (h : findById db i = some v) : (i, v) ∈ db := by
  induction db with
  | nil => simp [findById] at h
  | cons p rest ih =>
    obtain ⟨k, u⟩ := p
    by_cases hk : k = i
    · subst hk
      simp [findById_cons] at h
      simp [h]
    · simp [findById_cons, hk] at h
      exact List.mem_cons_of_mem _ (ih h)

theorem mem_updateById {α : Type} {db : List (Nat × α)} {i : Nat} {v : α}
    {p : Nat × α} (h : p ∈ updateById db i v) : p = (i, v) ∨ p ∈ db := by
  induction db with
  | nil => simp [updateById] at h
  | cons q rest ih =>
    obtain ⟨k, u⟩ := q
    by_cases hk : k = i
    · subst hk
      simp [updateById_cons] at h
      rcases h with h | h
      · exact Or.inl (by simp [h])
      · exact Or.inr (List.mem_cons_of_mem _ h)
    · simp [updateById_cons, hk] at h
      rcases h with h | h
      · exact Or.inr (by simp [h])
      · rcases ih h with h2 | h2
        · exact Or.inl h2
        · exact Or.inr (List.mem_cons_of_mem _ h2)

theorem mem_deleteById {α : Type} {db : List (Nat × α)} {i : Nat}
    {p : Nat × α} (h : p ∈ deleteById db i) : p ∈ db := by
  induction db with
  | nil => simp [deleteById] at h
  | cons q rest ih =>
    obtain ⟨k, u⟩ := q
    by_cases hk : k = i
    · subst hk
      simp [deleteById_cons] at h
      exact List.mem_cons_of_mem _ (ih h)
    · simp [deleteById_cons, hk] at h
      rcases h with h | h
      · simp [h]
      · exact List.mem_cons_of_mem _ (ih h)

/-! ### Lemmas about the atomic claim primitive -/

theorem claimJob_not_found {db : List (Nat × Job)} {jobId workerId : Nat}
    (h : findById db jobId = none) : claimJob db jobId workerId = (none, db) := by
  simp [claimJob, h]

theorem claimJob_not_claimable {db : List (Nat × Job)} {jobId workerId : Nat} {j : Job}
    (h : findById db jobId = some j)
    (hnc : ¬(j.status = JobStatus.posted ∧ j.workerId = none)) :
    claimJob db jobId workerId = (none, db) := by
  simp [claimJob, h, hnc]

theorem claimJob_claimable {db : List (Nat × Job)} {jobId workerId : Nat} {j : Job}
    (h : findById db jobId = some j)
    (hp : j.status = JobStatus.posted) (hw : j.workerId = none) :
    claimJob db jobId workerId =
      (some { j with workerId := some workerId, status := JobStatus.assigned },
       updateById db jobId
         { j with workerId := some workerId, status := JobStatus.assigned }) := by
  simp [claimJob, h, hp, hw]

theorem runClaims_nil (jobId : Nat) (db : List (Nat × Job)) :
    runClaims jobId db [] = ([], db) := rfl

theorem runClaims_cons (jobId : Nat) (db : List (Nat × Job)) (w : Nat) (ws : List Nat) :
    runClaims jobId db (w :: ws) =
      ((claimJob db jobId w).1.isSome ::
        (runClaims jobId (claimJob db jobId w).2 ws).1,
       (runClaims jobId (claimJob db jobId w).2 ws).2) := rfl

/-- Once the job is out of the claimable state, every further conditional
update fails and leaves the store untouched. -/
theorem runClaims_stuck {db : List (Nat × Job)} {jobId : Nat} {j : Job}
    (h : findById db jobId = some j)
    (hnc : ¬(j.status = JobStatus.posted ∧ j.workerId = none)) :
    ∀ ws : List Nat, runClaims jobId db ws = (List.replicate ws.length false, db) := by
  intro ws
  induction ws with
  | nil => rfl
  | cons w rest ih =>
    rw [runClaims_cons, claimJob_not_claimable h hnc]
    simp [ih, List.replicate_succ]

/-- C1: when any number of concurrent accept requests race on the same
posted, unclaimed job, the atomic conditional update lets exactly the
first one to reach the store succeed and all the others fail; the job
ends assigned to that single winner, and at every intermediate instant
its worker slot holds nobody or the winner alone, so no two distinct
workers ever hold the job in assigned or active at once. -/
theorem C1_claim_mutual_exclusion
    (db : List (Nat × Job)) (jobId : Nat) (j : Job) (w : Nat) (ws : List Nat)
    (hfind : findById db jobId = some j)
    (hposted : j.status = JobStatus.posted) (hunclaimed : j.workerId = none) :
    (runClaims jobId db (w :: ws)).1 = true :: List.replicate ws.length false ∧
    findById (runClaims jobId db (w :: ws)).2 jobId =
      some { j with workerId := some w, status := JobStatus.assigned } ∧
    ∀ n : Nat, ∀ j2 : Job,
      findById (runClaims jobId db ((w :: ws).take n)).2 jobId = some j2 →
      j2.workerId = none ∨ j2.workerId = some w := by
  have hclaim := @claimJob_claimable db jobId w j hfind hposted hunclaimed
  have hfind2 : findById
      (updateById db jobId { j with workerId := some w, status := JobStatus.assigned }) jobId =
      some { j with workerId := some w, status := JobStatus.assigned } := by
    rw [findById_updateById_self, hfind]
    rfl
  have hnc : ¬(Job.status { j with workerId := some w, status := JobStatus.assigned } =
      JobStatus.posted ∧
      Job.workerId { j with workerId := some w, status := JobStatus.assigned } = none) := by
    simp
  have hstuck := runClaims_stuck hfind2 hnc
  refine ⟨?_, ?_, ?_⟩
  · rw [runClaims_cons, hclaim]
    simp [hstuck ws]
  · rw [runClaims_cons, hclaim]
    simp only [hstuck ws]
    exact hfind2
  · intro n j3 hj3
    cases n with
    | zero =>
      simp only [List.take_zero, runClaims_nil] at hj3
      rw [hfind] at hj3
      cases hj3
      exact Or.inl hunclaimed
    | succ m =>
      rw [List.take_succ_cons, runClaims_cons, hclaim] at hj3
      simp only [hstuck (ws.take m)] at hj3
      rw [hfind2] at hj3
      cases hj3
      exact Or.inr rfl

/-- Closed evaluation of C1: three workers race for job 5; only the first
claim succeeds and worker 1 ends as the sole holder. -/
theorem C1_claim_mutual_exclusion_witness :
    (runClaims 5 [(5, sampleJob)] [1, 2, 3]).1 = [true, false, false] ∧
    findById (runClaims 5 [(5, sampleJob)] [1, 2, 3]).2 5 =
      some { sampleJob with workerId := some 1, status := JobStatus.assigned } := by
  have h := C1_claim_mutual_exclusion [(5, sampleJob)] 5 sampleJob 1 [2, 3]
    (by rfl) (by rfl) (by rfl)
  exact ⟨h.1, h.2.1⟩

/-- C7: a worker who already holds some job in assigned or active is
rejected with 400 before the claim is attempted, whatever job they ask
for, and the whole state — in particular the requested job — is left
unchanged. -/
theorem C7_single_active_job_precheck
    (st : SysState) (workerId jobId : Nat)
    (h : hasActiveJob st.jobs workerId = true) :
    acceptJob st workerId jobId = (400, st) := by
  simp [acceptJob, h]

/-- Closed evaluation of C7: worker 1 already holds active job 5 and is
rejected when accepting the independently claimable job 6. -/
theorem C7_single_active_job_precheck_witness :
    acceptJob { sampleActiveState with
        jobs := (6, sampleJob) :: sampleActiveState.jobs } 1 6 =
      (400, { sampleActiveState with
        jobs := (6, sampleJob) :: sampleActiveState.jobs }) :=
  C7_single_active_job_precheck _ 1 6 (by decide)

/-- C2: when the conditional claim update matches no record, acceptJob
re-reads the job and answers with exactly one of three outcomes, in this
precedence order: 404 when the job does not exist, otherwise 409 when the
job already carries a worker, otherwise 400 for any other non-posted
state; the state is unchanged in every case. -/
theorem C2_claim_failure_triage
    (st : SysState) (workerId jobId : Nat)
    (hpre : hasActiveJob st.jobs workerId = false) :
    (findById st.jobs jobId = none → acceptJob st workerId jobId = (404, st)) ∧
    (∀ j : Job, findById st.jobs jobId = some j → j.workerId ≠ none →
      acceptJob st workerId jobId = (409, st)) ∧
    (∀ j : Job, findById st.jobs jobId = some j → j.workerId = none →
      j.status ≠ JobStatus.posted → acceptJob st workerId jobId = (400, st)) := by
  refine ⟨?_, ?_, ?_⟩
  · intro hnone
    rw [acceptJob, claimJob_not_found hnone]
    simp [hpre, hnone]
  · intro j hfind hworker
    have hnc : ¬(j.status = JobStatus.posted ∧ j.workerId = none) := by
      intro hc
      exact hworker hc.2
    rw [acceptJob, claimJob_not_claimable hfind hnc]
    simp [hpre, hfind, hworker]
  · intro j hfind hworker hstatus
    have hnc : ¬(j.status = JobStatus.posted ∧ j.workerId = none) := by
      intro hc
      exact hstatus hc.1
    rw [acceptJob, claimJob_not_claimable hfind hnc]
    simp [hpre, hfind, hworker]

/-- Closed evaluation of C2: with no job 9 in the store the accept request
answers 404 and changes nothing. -/
theorem C2_claim_failure_triage_witness :
    acceptJob sampleState 1 9 = (404, sampleState) :=
  (C2_claim_failure_triage sampleState 1 9 (by decide)).1 (by rfl)

/-- C3: when the claim itself succeeds but the post-hoc guard fails —
the accepting worker record does not exist, or its skill list lacks the
job's skill — acceptJob rolls the job back to exactly its original
posted, unclaimed document and answers with an error (404 or 400), never
success. -/
theorem C3_claim_rollback
    (st : SysState) (workerId jobId : Nat) (j : Job)
    (hpre : hasActiveJob st.jobs workerId = false)
    (hfind : findById st.jobs jobId = some j)
    (hposted : j.status = JobStatus.posted) (hunclaimed : j.workerId = none)
    (hbad : findById st.workers workerId = none ∨
      ∃ wk : Worker, findById st.workers workerId = some wk ∧
        wk.skills.contains j.skill = false) :
    (acceptJob st workerId jobId).1 ≠ 200 ∧
    ((acceptJob st workerId jobId).1 = 404 ∨ (acceptJob st workerId jobId).1 = 400) ∧
    findById (acceptJob st workerId jobId).2.jobs jobId = some j := by
  have hclaim := @claimJob_claimable st.jobs jobId workerId j hfind hposted hunclaimed
  have hfind2 : findById
      (updateById st.jobs jobId { j with workerId := some workerId, status := JobStatus.assigned })
      jobId = some { j with workerId := some workerId, status := JobStatus.assigned } := by
    rw [findById_updateById_self, hfind]
    rfl
  have hrb : rollbackClaim
      (updateById st.jobs jobId { j with workerId := some workerId, status := JobStatus.assigned })
      jobId =
      updateById
        (updateById st.jobs jobId { j with workerId := some workerId, status := JobStatus.assigned })
        jobId j := by
    rw [rollbackClaim, hfind2]
    cases j
    simp_all
  have hback : findById
      (updateById
        (updateById st.jobs jobId { j with workerId := some workerId, status := JobStatus.assigned })
        jobId j) jobId = some j := by
    rw [findById_updateById_self, hfind2]
    rfl
  rcases hbad with hw | ⟨wk, hwk, hskill⟩
  · simp only [acceptJob, hpre, Bool.false_eq_true, if_false, hclaim, hw, hrb]
    exact ⟨by decide, Or.inl trivial, hback⟩
  · have hskill2 : wk.skills.contains
        (Job.skill { j with workerId := some workerId, status := JobStatus.assigned }) = false :=
      hskill
    simp only [acceptJob, hpre, Bool.false_eq_true, if_false, hclaim, hwk, hskill2, hrb]
    exact ⟨by decide, Or.inr trivial, hback⟩

/-- Closed evaluation of C3: worker 2 lacks the plumber skill; accepting
job 5 answers 400 and job 5 is back to its original posted document. -/
theorem C3_claim_rollback_witness :
    (acceptJob sampleState 2 5).1 = 400 ∧
    findById (acceptJob sampleState 2 5).2.jobs 5 = some sampleJob := by
  have h := C3_claim_rollback sampleState 2 5 sampleJob (by decide) (by rfl)
    (by rfl) (by rfl) (Or.inr ⟨sampleElectrician, by rfl, by decide⟩)
  rcases h.2.1 with h404 | h400
  · exact absurd h404 (by decide)
  · exact ⟨h400, h.2.2⟩

theorem findByIdAndClient_some {db : List (Nat × Job)} {jobId clientId : Nat} {j : Job}
    (h : findByIdAndClient db jobId clientId = some j) :
    findById db jobId = some j ∧ j.clientId = clientId := by
  unfold findByIdAndClient at h
  rcases hf : findById db jobId with _ | j0 <;> rw [hf] at h
  · cases h
  · by_cases hc : j0.clientId = clientId
    · simp only [hc, if_true] at h
      cases h
      exact ⟨rfl, hc⟩
    · simp [hc] at h

theorem findByIdAndWorker_some {db : List (Nat × Job)} {jobId workerId : Nat} {j : Job}
    (h : findByIdAndWorker db jobId workerId = some j) :
    findById db jobId = some j ∧ j.workerId = some workerId := by
  unfold findByIdAndWorker at h
  rcases hf : findById db jobId with _ | j0 <;> rw [hf] at h
  · cases h
  · by_cases hc : j0.workerId = some workerId
    · simp only [hc, if_true] at h
      cases h
      exact ⟨rfl, hc⟩
    · simp [hc] at h

/-- C4: completion succeeds exactly when the job exists for the
requesting client, is active, carries a generated completion code, and
the supplied code equals it; success completes the job, stamps
completedAt and clears the code, so replaying the same code fails; and a
code that was never generated or no longer matches the stored one is
rejected with 400 and changes nothing. -/
theorem C4_completion_otp_gate
    (st : SysState) (clientId jobId : Nat) (otp : Option String) (now now2 : Nat)
    (hgen : ∀ j : Job, findById st.jobs jobId = some j → j.completionOTP ≠ some "") :
    ((completeJob st clientId jobId otp now).1 = 200 ↔
      ∃ j c, findByIdAndClient st.jobs jobId clientId = some j ∧
        j.status = JobStatus.active ∧ j.completionOTP = some c ∧ otp = some c) ∧
    (∀ j c, findByIdAndClient st.jobs jobId clientId = some j →
      j.status = JobStatus.active → j.completionOTP = some c → otp = some c →
      findById (completeJob st clientId jobId otp now).2.jobs jobId =
        some { j with status := JobStatus.completed, completedAt := some now,
                      completionOTP := none } ∧
      (completeJob (completeJob st clientId jobId otp now).2 clientId jobId otp now2).1
        = 400) ∧
    (∀ j, findByIdAndClient st.jobs jobId clientId = some j →
      j.status = JobStatus.active →
      (j.completionOTP = none ∨
        ∃ c, j.completionOTP = some c ∧ otp ≠ some c) →
      completeJob st clientId jobId otp now = (400, st)) := by
  refine ⟨⟨?_, ?_⟩, ?_, ?_⟩
  · intro h200
    rcases ho : otp with _ | code
    · rw [ho] at h200
      simp [completeJob] at h200
    · rw [ho] at h200
      by_cases hcode : code = ""
      · simp [completeJob, hcode] at h200
      · rcases hf : findByIdAndClient st.jobs jobId clientId with _ | j
        · simp [completeJob, hcode, hf] at h200
        · by_cases hstat : j.status = JobStatus.active
          · rcases hstored : j.completionOTP with _ | stored
            · simp [completeJob, hcode, hf, hstat, hstored] at h200
            · by_cases hse : stored = ""
              · simp [completeJob, hcode, hf, hstat, hstored, hse] at h200
              · by_cases heqc : stored = code
                · exact ⟨j, stored, rfl, hstat, hstored, by rw [heqc]⟩
                · simp [completeJob, hcode, hf, hstat, hstored, hse, heqc] at h200
          · simp [completeJob, hcode, hf, hstat] at h200
  · rintro ⟨j, c, hf, hstat, hstored, ho⟩
    have hj := (findByIdAndClient_some hf).1
    have hc : ¬c = "" := by
      intro hce
      exact hgen j hj (by rw [hstored, hce])
    simp [completeJob, ho, hc, hf, hstat, hstored]
  · intro j c hf hstat hstored ho
    have hj := (findByIdAndClient_some hf).1
    have hcl := (findByIdAndClient_some hf).2
    have hc : ¬c = "" := by
      intro hce
      exact hgen j hj (by rw [hstored, hce])
    set st2 := (completeJob st clientId jobId otp now).2 with hst2
    have hjobs2 : st2.jobs =
        updateById st.jobs jobId
          { j with status := JobStatus.completed, completedAt := some now,
                   completionOTP := none } := by
      rw [hst2]
      simp [completeJob, ho, hc, hf, hstat, hstored]
    have hfound2 : findById st2.jobs jobId =
        some { j with status := JobStatus.completed, completedAt := some now,
                      completionOTP := none } := by
      rw [hjobs2, findById_updateById_self, hj]
      rfl
    refine ⟨hfound2, ?_⟩
    have hfc2 : findByIdAndClient st2.jobs jobId clientId =
        some { j with status := JobStatus.completed, completedAt := some now,
                      completionOTP := none } := by
      simp [findByIdAndClient, hfound2, hcl]
    simp [completeJob, ho, hc, hfc2]
  · intro j hf hstat hmis
    rcases ho : otp with _ | code
    · simp [completeJob]
    · by_cases hcode : code = ""
      · simp [completeJob, hcode]
      · rcases hstored : j.completionOTP with _ | stored
        · simp [completeJob, hcode, hf, hstat, hstored]
        · by_cases hse : stored = ""
          · simp [completeJob, hcode, hf, hstat, hstored, hse]
          · have hne : ¬stored = code := by
              rcases hmis with h0 | ⟨c, hc1, hc2⟩
              · rw [h0] at hstored
                cases hstored
              · rw [hc1] at hstored
                cases hstored
                intro hsc
                exact hc2 (by rw [ho, hsc])
            simp [completeJob, hcode, hf, hstat, hstored, hse, hne]

/-- Closed evaluation of C4: completing active job 5 with the stored code
123456 succeeds; replaying the same code afterwards answers 400. -/
theorem C4_completion_otp_gate_witness :
    (completeJob sampleActiveState 1 5 (some "123456") 9).1 = 200 ∧
    (completeJob (completeJob sampleActiveState 1 5 (some "123456") 9).2
      1 5 (some "123456") 10).1 = 400 := by
  have h := C4_completion_otp_gate sampleActiveState 1 5 (some "123456") 9 10
    (by decide)
  refine ⟨?_, ?_⟩
  · exact h.1.2 ⟨sampleActiveJob, "123456", by rfl, by rfl, by rfl, rfl⟩
  · exact (h.2.1 sampleActiveJob "123456" (by rfl) (by rfl) (by rfl) rfl).2

/-- C8: client cancellation hard-deletes the job only from posted or
assigned; on an active or completed job it answers 400 and changes
nothing, and on a missing job it answers 404 — never a silent no-op
success.  Worker cancellation is likewise rejected unless the status is
assigned or active. -/
theorem C8_cancellation_guards
    (st : SysState) (clientId workerId jobId : Nat) :
    (findByIdAndClient st.jobs jobId clientId = none →
      cancelJob st clientId jobId = (404, st)) ∧
    (∀ j : Job, findByIdAndClient st.jobs jobId clientId = some j →
      j.status = JobStatus.active ∨ j.status = JobStatus.completed →
      cancelJob st clientId jobId = (400, st)) ∧
    (∀ j : Job, findByIdAndClient st.jobs jobId clientId = some j →
      j.status = JobStatus.posted ∨ j.status = JobStatus.assigned →
      (cancelJob st clientId jobId).1 = 200 ∧
      findById (cancelJob st clientId jobId).2.jobs jobId = none) ∧
    (findByIdAndWorker st.jobs jobId workerId = none →
      cancelJobByWorker st workerId jobId = (404, st)) ∧
    (∀ j : Job, findByIdAndWorker st.jobs jobId workerId = some j →
      j.status = JobStatus.posted ∨ j.status = JobStatus.completed →
      cancelJobByWorker st workerId jobId = (400, st)) := by
  refine ⟨?_, ?_, ?_, ?_, ?_⟩
  · intro hf
    simp [cancelJob, hf]
  · intro j hf hstat
    rcases hstat with h | h <;> simp [cancelJob, hf, h]
  · intro j hf hstat
    have hok : j.status = JobStatus.posted ∨ j.status = JobStatus.assigned := hstat
    constructor
    · simp [cancelJob, hf, hok]
    · simp [cancelJob, hf, hok, findById_deleteById_self]
  · intro hf
    simp [cancelJobByWorker, hf]
  · intro j hf hstat
    have hcond : j.status ≠ JobStatus.assigned ∧ j.status ≠ JobStatus.active := by
      rcases hstat with h | h <;> simp [h]
    simp [cancelJobByWorker, hf, hcond]

/-- Closed evaluation of C8: client 1 cancels posted job 5; the request
succeeds and the document is gone. -/
theorem C8_cancellation_guards_witness :
    (cancelJob sampleState 1 5).1 = 200 ∧
    findById (cancelJob sampleState 1 5).2.jobs 5 = none :=
  (C8_cancellation_guards sampleState 1 1 5).2.2.1 sampleJob (by rfl) (Or.inl rfl)

/-! ### Collection-wide invariants: plumbing -/

theorem allJobs_updateById {P : Job → Prop} {db : List (Nat × Job)} {i : Nat} {v : Job}
    (h : AllJobs P db) (hv : P v) : AllJobs P (updateById db i v) := by
  intro p hp
  rcases mem_updateById hp with h2 | h2
  · rw [h2]
    exact hv
  · exact h p h2

theorem allJobs_deleteById {P : Job → Prop} {db : List (Nat × Job)} {i : Nat}
    (h : AllJobs P db) : AllJobs P (deleteById db i) :=
  fun p hp => h p (mem_deleteById hp)

theorem allJobs_cons {P : Job → Prop} {db : List (Nat × Job)} {i : Nat} {v : Job}
    (h : AllJobs P db) (hv : P v) : AllJobs P ((i, v) :: db) := by
  intro p hp
  rcases List.mem_cons.mp hp with h2 | h2
  · rw [h2]
    exact hv
  · exact h p h2

theorem allJobs_find {P : Job → Prop} {db : List (Nat × Job)} {i : Nat} {j : Job}
    (h : AllJobs P db) (hf : findById db i = some j) : P j :=
  h (i, j) (findById_mem hf)

/-- Clearing the worker and resetting the status of a document that is
already posted and unclaimed reproduces the document itself. -/
theorem reset_eq_self {j : Job} (hp : j.status = JobStatus.posted)
    (hw : j.workerId = none) :
    { j with workerId := none, status := JobStatus.posted } = j := by
  cases j
  simp_all

/-! ### Per-operation shapes of the jobs collection -/

theorem createJob_jobs_shape (st : SysState) (clientId : Nat)
    (skill title description : String) (urgency : Bool) (address : Option Address)
    (newId now : Nat) :
    (createJob st clientId skill title description urgency address newId now).2.jobs
        = st.jobs ∨
    (createJob st clientId skill title description urgency address newId now).2.jobs
        = (newId,
            { clientId := clientId, workerId := none, title := title,
              description := description, skill := skill, urgency := urgency,
              status := JobStatus.posted, completionOTP := none,
              assignedAt := none, startedAt := none, completedAt := none,
              createdAt := now }) :: st.jobs := by
  by_cases h1 : skill = "" ∨ title = "" ∨ description = ""
  · simp [createJob, h1]
  · rcases address with _ | a
    · simp [createJob, h1]
    · by_cases h2 : (a.city = none ∨ a.city = some "") ∧ a.hasLocation = false
      · simp [createJob, h1, h2]
      · simp [createJob, h1, h2]

theorem acceptJob_jobs_shape (st : SysState) (workerId jobId : Nat) :
    (acceptJob st workerId jobId).2.jobs = st.jobs ∨
    (∃ j : Job, findById st.jobs jobId = some j ∧
      j.status = JobStatus.posted ∧ j.workerId = none ∧
      ((acceptJob st workerId jobId).2.jobs =
        updateById st.jobs jobId
          { j with workerId := some workerId, status := JobStatus.assigned } ∨
       (acceptJob st workerId jobId).2.jobs =
        updateById
          (updateById st.jobs jobId
            { j with workerId := some workerId, status := JobStatus.assigned })
          jobId j)) := by
  by_cases hpre : hasActiveJob st.jobs workerId = true
  · simp [acceptJob, hpre]
  · have hpre2 : hasActiveJob st.jobs workerId = false := by
      simpa using hpre
    rcases hf : findById st.jobs jobId with _ | j
    · rw [acceptJob, claimJob_not_found hf]
      simp [hpre2, hf]
    · by_cases hcl : j.status = JobStatus.posted ∧ j.workerId = none
      · have hclaim := @claimJob_claimable st.jobs jobId workerId j hf hcl.1 hcl.2
        have hfind2 : findById
            (updateById st.jobs jobId
              { j with workerId := some workerId, status := JobStatus.assigned }) jobId =
            some { j with workerId := some workerId, status := JobStatus.assigned } := by
          rw [findById_updateById_self, hf]
          rfl
        have hrb : rollbackClaim
            (updateById st.jobs jobId
              { j with workerId := some workerId, status := JobStatus.assigned }) jobId =
            updateById
              (updateById st.jobs jobId
                { j with workerId := some workerId, status := JobStatus.assigned })
              jobId j := by
          rw [rollbackClaim, hfind2]
          cases j
          simp_all
        refine Or.inr ⟨j, rfl, hcl.1, hcl.2, ?_⟩
        rcases hw : findById st.workers workerId with _ | wk
        · refine Or.inr ?_
          simp [acceptJob, hpre2, hclaim, hw, hrb]
        · by_cases hmem : j.skill ∈ wk.skills
          · refine Or.inl ?_
            simp [acceptJob, hpre2, hclaim, hw, hmem]
          · refine Or.inr ?_
            simp [acceptJob, hpre2, hclaim, hw, hmem, hrb]
      · rw [acceptJob, claimJob_not_claimable hf hcl]
        by_cases hwid : j.workerId = none <;> simp [hpre2, hf, hwid]

theorem startJob_jobs_shape (st : SysState) (clientId jobId now : Nat) :
    (startJob st clientId jobId now).2.jobs = st.jobs ∨
    (∃ j : Job, findByIdAndClient st.jobs jobId clientId = some j ∧
      j.status = JobStatus.assigned ∧
      (startJob st clientId jobId now).2.jobs =
        updateById st.jobs jobId
          { j with status := JobStatus.active, startedAt := some now }) := by
  rcases hf : findByIdAndClient st.jobs jobId clientId with _ | j
  · simp [startJob, hf]
  · by_cases hstat : j.status = JobStatus.assigned
    · exact Or.inr ⟨j, rfl, hstat, by simp [startJob, hf, hstat]⟩
    · simp [startJob, hf, hstat]

theorem completeJob_jobs_shape (st : SysState) (clientId jobId : Nat)
    (otp : Option String) (now : Nat) :
    (completeJob st clientId jobId otp now).2.jobs = st.jobs ∨
    (∃ j : Job, findByIdAndClient st.jobs jobId clientId = some j ∧
      j.status = JobStatus.active ∧
      (completeJob st clientId jobId otp now).2.jobs =
        updateById st.jobs jobId
          { j with status := JobStatus.completed, completedAt := some now,
                   completionOTP := none }) := by
  rcases ho : otp with _ | code
  · simp [completeJob]
  · by_cases hcode : code = ""
    · simp [completeJob, hcode]
    · rcases hf : findByIdAndClient st.jobs jobId clientId with _ | j
      · simp [completeJob, hcode, hf]
      · by_cases hstat : j.status = JobStatus.active
        · rcases hstored : j.completionOTP with _ | stored
          · simp [completeJob, hcode, hf, hstat, hstored]
          · by_cases hse : stored = ""
            · simp [completeJob, hcode, hf, hstat, hstored, hse]
            · by_cases heqc : stored = code
              · refine Or.inr ⟨j, rfl, hstat, ?_⟩
                simp [completeJob, hcode, hf, hstat, hstored, hse, heqc]
              · simp [completeJob, hcode, hf, hstat, hstored, hse, heqc]
        · simp [completeJob, hcode, hf, hstat]

theorem getCompletionOTP_jobs_shape (st : SysState) (workerId jobId rnd : Nat) :
    (getCompletionOTP st workerId jobId rnd).2.jobs = st.jobs ∨
    (∃ j : Job, findByIdAndWorker st.jobs jobId workerId = some j ∧
      j.status = JobStatus.active ∧
      (getCompletionOTP st workerId jobId rnd).2.jobs =
        updateById st.jobs jobId { j with completionOTP := some (genOTP rnd) }) := by
  rcases hf : findByIdAndWorker st.jobs jobId workerId with _ | j
  · simp [getCompletionOTP, hf]
  · by_cases hstat : j.status = JobStatus.active
    · exact Or.inr ⟨j, rfl, hstat, by simp [getCompletionOTP, hf, hstat]⟩
    · simp [getCompletionOTP, hf, hstat]

theorem cancelJob_jobs_shape (st : SysState) (clientId jobId : Nat) :
    (cancelJob st clientId jobId).2.jobs = st.jobs ∨
    (cancelJob st clientId jobId).2.jobs = deleteById st.jobs jobId := by
  rcases hf : findByIdAndClient st.jobs jobId clientId with _ | j
  · simp [cancelJob, hf]
  · by_cases hstat : j.status = JobStatus.posted ∨ j.status = JobStatus.assigned
    · simp [cancelJob, hf, hstat]
    · simp [cancelJob, hf, hstat]

theorem cancelJobByWorker_jobs_shape (st : SysState) (workerId jobId : Nat) :
    (cancelJobByWorker st workerId jobId).2.jobs = st.jobs ∨
    (∃ j : Job, findByIdAndWorker st.jobs jobId workerId = some j ∧
      (cancelJobByWorker st workerId jobId).2.jobs =
        updateById st.jobs jobId
          { j with status := JobStatus.posted, workerId := none,
                   assignedAt := none, completionOTP := none }) := by
  rcases hf : findByIdAndWorker st.jobs jobId workerId with _ | j
  · simp [cancelJobByWorker, hf]
  · by_cases hstat : j.status ≠ JobStatus.assigned ∧ j.status ≠ JobStatus.active
    · simp [cancelJobByWorker, hf, hstat]
    · exact Or.inr ⟨j, rfl, by simp [cancelJobByWorker, hf, hstat]⟩

theorem rateWorker_jobs_unchanged (st : SysState) (clientId jobId : Nat)
    (rating : Option Rat) (review : Option String) :
    (rateWorker st clientId jobId rating review).2.jobs = st.jobs := by
  unfold rateWorker
  repeat' split
  all_goals rfl

theorem rateClient_jobs_unchanged (st : SysState) (workerId jobId : Nat)
    (rating : Option Rat) (review : Option String) :
    (rateClient st workerId jobId rating review).2.jobs = st.jobs := by
  unfold rateClient
  repeat' split
  all_goals rfl

/-- C5: over every job operation, a state in which completion codes only
exist on active jobs keeps that property: the code is set only by OTP
generation on an active job and is cleared by every transition out of
active (completion and worker cancellation). -/
theorem C5_otp_only_while_active (st : SysState) (h : OTPInv st.jobs) :
    (∀ (cid : Nat) (skill title description : String) (urgency : Bool)
        (address : Option Address) (newId now : Nat),
      OTPInv (createJob st cid skill title description urgency address newId now).2.jobs) ∧
    (∀ w jobId : Nat, OTPInv (acceptJob st w jobId).2.jobs) ∧
    (∀ cid jobId now : Nat, OTPInv (startJob st cid jobId now).2.jobs) ∧
    (∀ (cid jobId : Nat) (otp : Option String) (now : Nat),
      OTPInv (completeJob st cid jobId otp now).2.jobs) ∧
    (∀ w jobId rnd : Nat, OTPInv (getCompletionOTP st w jobId rnd).2.jobs) ∧
    (∀ cid jobId : Nat, OTPInv (cancelJob st cid jobId).2.jobs) ∧
    (∀ w jobId : Nat, OTPInv (cancelJobByWorker st w jobId).2.jobs) ∧
    (∀ (cid jobId : Nat) (rating : Option Rat) (review : Option String),
      OTPInv (rateWorker st cid jobId rating review).2.jobs) ∧
    (∀ (w jobId : Nat) (rating : Option Rat) (review : Option String),
      OTPInv (rateClient st w jobId rating review).2.jobs) := by
  refine ⟨?_, ?_, ?_, ?_, ?_, ?_, ?_, ?_, ?_⟩
  · intro cid skill title description urgency address newId now
    rcases createJob_jobs_shape st cid skill title description urgency address newId now
      with hs | hs
    · rw [hs]
      exact h
    · rw [hs]
      exact allJobs_cons h (fun hne => absurd rfl hne)
  · intro w jobId
    rcases acceptJob_jobs_shape st w jobId with hs | ⟨j, hf, hp, hwid, hs | hs⟩
    · rw [hs]
      exact h
    · rw [hs]
      apply allJobs_updateById h
      intro hne
      have hact := allJobs_find h hf hne
      rw [hp] at hact
      cases hact
    · rw [hs]
      refine allJobs_updateById (allJobs_updateById h ?_) (allJobs_find h hf)
      intro hne
      have hact := allJobs_find h hf hne
      rw [hp] at hact
      cases hact
  · intro cid jobId now
    rcases startJob_jobs_shape st cid jobId now with hs | ⟨j, hf, hassigned, hs⟩
    · rw [hs]
      exact h
    · rw [hs]
      exact allJobs_updateById h (fun _ => rfl)
  · intro cid jobId otp now
    rcases completeJob_jobs_shape st cid jobId otp now with hs | ⟨j, hf, hactive, hs⟩
    · rw [hs]
      exact h
    · rw [hs]
      exact allJobs_updateById h (fun hne => absurd rfl hne)
  · intro w jobId rnd
    rcases getCompletionOTP_jobs_shape st w jobId rnd with hs | ⟨j, hf, hactive, hs⟩
    · rw [hs]
      exact h
    · rw [hs]
      exact allJobs_updateById h (fun _ => hactive)
  · intro cid jobId
    rcases cancelJob_jobs_shape st cid jobId with hs | hs
    · rw [hs]
      exact h
    · rw [hs]
      exact allJobs_deleteById h
  · intro w jobId
    rcases cancelJobByWorker_jobs_shape st w jobId with hs | ⟨j, hf, hs⟩
    · rw [hs]
      exact h
    · rw [hs]
      exact allJobs_updateById h (fun hne => absurd rfl hne)
  · intro cid jobId rating review
    rw [rateWorker_jobs_unchanged]
    exact h
  · intro w jobId rating review
    rw [rateClient_jobs_unchanged]
    exact h

/-- Closed evaluation of C5: the invariant survives a worker cancellation
(which clears the code) and an OTP generation on the active job. -/
theorem C5_otp_only_while_active_witness :
    OTPInv (cancelJobByWorker sampleActiveState 1 5).2.jobs ∧
    OTPInv (getCompletionOTP sampleActiveState 1 5 7).2.jobs := by
  have h := C5_otp_only_while_active sampleActiveState (by decide)
  exact ⟨h.2.2.2.2.2.2.1 1 5, h.2.2.2.2.1 1 5 7⟩

/-- C6: over every job operation, a state in which a job carries a worker
exactly when its status is assigned, active or completed keeps that
property: creation yields a posted job with no worker, a successful claim
sets both fields together, rollback and worker cancellation clear both
together, and start and completion carry the worker along. -/
theorem C6_worker_iff_status (st : SysState) (h : WorkerLinkInv st.jobs) :
    (∀ (cid : Nat) (skill title description : String) (urgency : Bool)
        (address : Option Address) (newId now : Nat),
      WorkerLinkInv (createJob st cid skill title description urgency address newId now).2.jobs) ∧
    (∀ w jobId : Nat, WorkerLinkInv (acceptJob st w jobId).2.jobs) ∧
    (∀ cid jobId now : Nat, WorkerLinkInv (startJob st cid jobId now).2.jobs) ∧
    (∀ (cid jobId : Nat) (otp : Option String) (now : Nat),
      WorkerLinkInv (completeJob st cid jobId otp now).2.jobs) ∧
    (∀ w jobId rnd : Nat, WorkerLinkInv (getCompletionOTP st w jobId rnd).2.jobs) ∧
    (∀ cid jobId : Nat, WorkerLinkInv (cancelJob st cid jobId).2.jobs) ∧
    (∀ w jobId : Nat, WorkerLinkInv (cancelJobByWorker st w jobId).2.jobs) ∧
    (∀ (cid jobId : Nat) (rating : Option Rat) (review : Option String),
      WorkerLinkInv (rateWorker st cid jobId rating review).2.jobs) ∧
    (∀ (w jobId : Nat) (rating : Option Rat) (review : Option String),
      WorkerLinkInv (rateClient st w jobId rating review).2.jobs) := by
  refine ⟨?_, ?_, ?_, ?_, ?_, ?_, ?_, ?_, ?_⟩
  · intro cid skill title description urgency address newId now
    rcases createJob_jobs_shape st cid skill title description urgency address newId now
      with hs | hs
    · rw [hs]
      exact h
    · rw [hs]
      exact allJobs_cons h (by simp)
  · intro w jobId
    rcases acceptJob_jobs_shape st w jobId with hs | ⟨j, hf, hp, hwid, hs | hs⟩
    · rw [hs]
      exact h
    · rw [hs]
      exact allJobs_updateById h (by simp)
    · rw [hs]
      exact allJobs_updateById (allJobs_updateById h (by simp)) (allJobs_find h hf)
  · intro cid jobId now
    rcases startJob_jobs_shape st cid jobId now with hs | ⟨j, hf, hassigned, hs⟩
    · rw [hs]
      exact h
    · rw [hs]
      have hQ := allJobs_find h (findByIdAndClient_some hf).1
      have hwid : j.workerId ≠ none := hQ.mpr (Or.inl hassigned)
      exact allJobs_updateById h ⟨fun _ => Or.inr (Or.inl rfl), fun _ => hwid⟩
  · intro cid jobId otp now
    rcases completeJob_jobs_shape st cid jobId otp now with hs | ⟨j, hf, hactive, hs⟩
    · rw [hs]
      exact h
    · rw [hs]
      have hQ := allJobs_find h (findByIdAndClient_some hf).1
      have hwid : j.workerId ≠ none := hQ.mpr (Or.inr (Or.inl hactive))
      exact allJobs_updateById h ⟨fun _ => Or.inr (Or.inr rfl), fun _ => hwid⟩
  · intro w jobId rnd
    rcases getCompletionOTP_jobs_shape st w jobId rnd with hs | ⟨j, hf, hactive, hs⟩
    · rw [hs]
      exact h
    · rw [hs]
      have hQ := allJobs_find h (findByIdAndWorker_some hf).1
      exact allJobs_updateById h hQ
  · intro cid jobId
    rcases cancelJob_jobs_shape st cid jobId with hs | hs
    · rw [hs]
      exact h
    · rw [hs]
      exact allJobs_deleteById h
  · intro w jobId
    rcases cancelJobByWorker_jobs_shape st w jobId with hs | ⟨j, hf, hs⟩
    · rw [hs]
      exact h
    · rw [hs]
      exact allJobs_updateById h (by simp)
  · intro cid jobId rating review
    rw [rateWorker_jobs_unchanged]
    exact h
  · intro w jobId rating review
    rw [rateClient_jobs_unchanged]
    exact h

/-- Closed evaluation of C6: the invariant survives a successful claim of
the posted job and a client cancellation. -/
theorem C6_worker_iff_status_witness :
    WorkerLinkInv (acceptJob sampleState 1 5).2.jobs ∧
    WorkerLinkInv (cancelJob sampleState 1 5).2.jobs := by
  have h := C6_worker_iff_status sampleState (by decide)
  exact ⟨h.2.1 1 5, h.2.2.2.2.2.1 1 5⟩

/-- C9 counterexample: the rating guard `!rating || rating < 1 || rating > 5`
and the schema validators (min 1, max 5) accept the non-integer 2.5: the
request succeeds and the review is stored with rating 2.5, so requests
whose rating is outside the integer range 1..5 are not all rejected. -/
theorem C9_counterexample :
    ratTwoPointFive.den ≠ 1 ∧
    (rateWorker sampleCompletedState 1 5 (some ratTwoPointFive) none).1 = 200 ∧
    (rateWorker sampleCompletedState 1 5 (some ratTwoPointFive) none).2.reviews.map
      (fun rv => rv.rating) = [ratTwoPointFive] := by
  refine ⟨by decide, by decide, by decide⟩

/-- C9 (amended): rate-worker and rate-client accept exactly the numeric
ratings r with 1 ≤ r ≤ 5 — integrality is not enforced; a missing rating
or one outside that range is rejected with 400 and the state, in
particular the review collection, is unchanged; every accepted request
stores a review whose rating is the supplied in-range number. -/
theorem C9_rating_range
    (st : SysState) (cid wid jobId : Nat) (review : Option String) :
    (rateWorker st cid jobId none review = (400, st)) ∧
    (rateClient st wid jobId none review = (400, st)) ∧
    (∀ r : Rat, ¬(1 ≤ r ∧ r ≤ 5) →
      rateWorker st cid jobId (some r) review = (400, st) ∧
      rateClient st wid jobId (some r) review = (400, st)) ∧
    (∀ r : Rat, (rateWorker st cid jobId (some r) review).1 = 200 →
      (1 ≤ r ∧ r ≤ 5) ∧
      (rateWorker st cid jobId (some r) review).2.reviews.head?.map
        (fun rv => rv.rating) = some r) ∧
    (∀ r : Rat, (rateClient st wid jobId (some r) review).1 = 200 →
      (1 ≤ r ∧ r ≤ 5) ∧
      (rateClient st wid jobId (some r) review).2.reviews.head?.map
        (fun rv => rv.rating) = some r) := by
  have hguard : ∀ r : Rat, ¬(1 ≤ r ∧ r ≤ 5) → (r = 0 ∨ r < 1 ∨ r > 5) := by
    intro r h
    rcases not_and_or.mp h with h1 | h5
    · exact Or.inr (Or.inl (not_le.mp h1))
    · exact Or.inr (Or.inr (not_le.mp h5))
  have hrange : ∀ r : Rat, ¬(r = 0 ∨ r < 1 ∨ r > 5) → 1 ≤ r ∧ r ≤ 5 := by
    intro r h
    push_neg at h
    exact ⟨h.2.1, h.2.2⟩
  refine ⟨rfl, rfl, ?_, ?_, ?_⟩
  · intro r h
    exact ⟨by simp [rateWorker, hguard r h], by simp [rateClient, hguard r h]⟩
  · intro r h200
    by_cases hbad : r = 0 ∨ r < 1 ∨ r > 5
    · simp [rateWorker, hbad] at h200
    · refine ⟨hrange r hbad, ?_⟩
      rcases hf : findByIdAndClient st.jobs jobId cid with _ | j
      · simp [rateWorker, hbad, hf] at h200
      · by_cases hstat : j.status = JobStatus.completed
        · rcases hwj : j.workerId with _ | wid2
          · simp [rateWorker, hbad, hf, hstat, hwj] at h200
          · by_cases hdup : ∃ x ∈ st.reviews, x.jobId = jobId ∧ x.clientId = cid ∧
                x.reviewType = ReviewType.clientToWorker
            · simp [rateWorker, hbad, hf, hstat, hwj, hdup] at h200
            · by_cases hok : 1 ≤ r ∧ r ≤ 5 ∧ (review.getD "").length ≤ 500
              · simp [rateWorker, reviewSchemaOk, hbad, hf, hstat, hwj, hdup, hok]
              · simp [rateWorker, reviewSchemaOk, hbad, hf, hstat, hwj, hdup, hok]
                  at h200
        · simp [rateWorker, hbad, hf, hstat] at h200
  · intro r h200
    by_cases hbad : r = 0 ∨ r < 1 ∨ r > 5
    · simp [rateClient, hbad] at h200
    · refine ⟨hrange r hbad, ?_⟩
      rcases hf : findByIdAndWorker st.jobs jobId wid with _ | j
      · simp [rateClient, hbad, hf] at h200
      · by_cases hstat : j.status = JobStatus.completed
        · by_cases hdup : ∃ x ∈ st.reviews, x.jobId = jobId ∧ x.workerId = wid ∧
              x.reviewType = ReviewType.workerToClient
          · simp [rateClient, hbad, hf, hstat, hdup] at h200
          · by_cases hok : 1 ≤ r ∧ r ≤ 5 ∧ (review.getD "").length ≤ 500
            · simp [rateClient, reviewSchemaOk, hbad, hf, hstat, hdup, hok]
            · simp [rateClient, reviewSchemaOk, hbad, hf, hstat, hdup, hok] at h200
        · simp [rateClient, hbad, hf, hstat] at h200

/-- Closed evaluation of C9: the out-of-range rating 6 on the completed
job 5 is rejected with 400 and nothing changes. -/
theorem C9_rating_range_witness :
    rateWorker sampleCompletedState 1 5 (some 6) none = (400, sampleCompletedState) :=
  ((C9_rating_range sampleCompletedState 1 1 5 none).2.2.1 6 (by norm_num)).1

/-! ### The comparators of getAvailableJobs are total preorders -/

theorem recLe_total (a b : JobOut) : recLe a b = true ∨ recLe b a = true := by
  simp only [recLe, decide_eq_true_eq]
  exact le_total _ _

theorem recLe_trans (a b c : JobOut) (h1 : recLe a b = true) (h2 : recLe b c = true) :
    recLe a c = true := by
  simp only [recLe, decide_eq_true_eq] at *
  omega

theorem distLe_total (a b : JobOut) : distLe a b = true ∨ distLe b a = true := by
  unfold distLe
  rcases ha : a.distance with _ | x <;> rcases hb : b.distance with _ | y <;>
    simp only [decide_eq_true_eq]
  · exact le_total _ _
  · exact Or.inr trivial
  · exact Or.inl trivial
  · exact le_total _ _

theorem distLe_trans (a b c : JobOut) :
    distLe a b = true → distLe b c = true → distLe a c = true := by
  unfold distLe
  rcases ha : a.distance with _ | x <;> rcases hb : b.distance with _ | y <;>
    rcases hc : c.distance with _ | z <;> simp only [decide_eq_true_eq] <;> intros <;>
    first
      | trivial
      | omega
      | (rename_i h1 h2
         exact le_trans h1 h2)

instance instTotalDbRecLe :
    IsTotal (Nat × Job) (fun a b => dbRecLe a b = true) := by
  refine ⟨fun a b => ?_⟩
  simp only [dbRecLe, decide_eq_true_eq]
  exact le_total _ _

instance instTransDbRecLe :
    IsTrans (Nat × Job) (fun a b => dbRecLe a b = true) := by
  refine ⟨fun a b c h1 h2 => ?_⟩
  simp only [dbRecLe, decide_eq_true_eq] at *
  omega

instance instTotalAvailLe (s : String) :
    IsTotal JobOut (fun a b => availLe s a b = true) := by
  refine ⟨fun a b => ?_⟩
  unfold availLe
  by_cases hs : s = "distance"
  · rw [if_pos hs, if_pos hs]
    exact distLe_total a b
  · rw [if_neg hs, if_neg hs]
    exact recLe_total a b

instance instTransAvailLe (s : String) :
    IsTrans JobOut (fun a b => availLe s a b = true) := by
  refine ⟨fun a b c h1 h2 => ?_⟩
  unfold availLe at *
  by_cases hs : s = "distance"
  · rw [if_pos hs] at *
    exact distLe_trans a b c h1 h2
  · rw [if_neg hs] at *
    exact recLe_trans a b c h1 h2

/-! ### Structure of the getAvailableJobs response -/

theorem skillFilter_allServices (ws : List String) (j : Job) :
    skillFilter (some "All Services") ws j = skillFilter none ws j := rfl

theorem skillFilter_forYou {ws : List String} {j : Job}
    (h : skillFilter (some "For you") ws j = true) : j.skill ∈ ws := by
  have h2 : ws.elem j.skill = true := h
  exact List.elem_iff.mp h2

/-- Everything getAvailableJobs returns comes from a stored job that
passes the status, skill and urgency filters, and — whatever the worker's
location — carries a distance that is null or within maxDistance. -/
theorem mem_getAvailableJobs
    {st : SysState} {workerId : Nat} {w : Worker}
    {page limit : Option Nat} {skill : Option String} {maxDistance : Option Rat}
    {urgency sortBy : Option String} {dist : Nat → Option Rat} {o : JobOut}
    (hw : findById st.workers workerId = some w)
    (ho : o ∈ (getAvailableJobs st workerId page limit skill maxDistance
      urgency sortBy dist).2) :
    ∃ pr : Nat × Job, pr ∈ st.jobs ∧ o.job = pr.2 ∧
      (decide (pr.2.status = JobStatus.posted ∧ pr.2.workerId = none) &&
        skillFilter skill w.skills pr.2 && urgencyFilter urgency pr.2) = true ∧
      (o.distance = none ∨ ∃ d : Rat, o.distance = some d ∧ d ≤ maxDistance.getD 25) := by
  simp only [getAvailableJobs, hw] at ho
  by_cases hloc : w.hasValidLocation = true
  · rw [if_pos hloc] at ho
    replace ho := List.take_subset _ _ ho
    replace ho := List.drop_subset _ _ ho
    rw [List.mem_insertionSort, List.mem_filter] at ho
    obtain ⟨homem, hofilt⟩ := ho
    obtain ⟨pr, hpr, heq⟩ := List.mem_map.mp homem
    rw [List.mem_insertionSort, List.mem_filter] at hpr
    refine ⟨pr, hpr.1, ?_, hpr.2, ?_⟩
    · rw [← heq]
      rfl
    · rcases hd : o.distance with _ | d
      · exact Or.inl rfl
      · rw [hd] at hofilt
        exact Or.inr ⟨d, rfl, of_decide_eq_true hofilt⟩
  · rw [if_neg hloc] at ho
    replace ho := List.take_subset _ _ ho
    replace ho := List.drop_subset _ _ ho
    obtain ⟨pr, hpr, heq⟩ := List.mem_map.mp ho
    rw [List.mem_insertionSort, List.mem_filter] at hpr
    refine ⟨pr, hpr.1, ?_, hpr.2, Or.inl ?_⟩
    · rw [← heq]
    · rw [← heq]

/-- With valid worker coordinates the page is sorted by the comparator
selected by sortBy (destructuring default: distance). -/
theorem getAvailableJobs_sorted_of_loc
    {st : SysState} {workerId : Nat} {w : Worker}
    {page limit : Option Nat} {skill : Option String} {maxDistance : Option Rat}
    {urgency sortBy : Option String} {dist : Nat → Option Rat}
    (hw : findById st.workers workerId = some w) (hloc : w.hasValidLocation = true) :
    List.Sorted (fun a b => availLe (sortBy.getD "distance") a b = true)
      (getAvailableJobs st workerId page limit skill maxDistance urgency sortBy dist).2 := by
  simp only [getAvailableJobs, hw]
  rw [if_pos hloc]
  exact List.Pairwise.sublist
    ((List.take_sublist _ _).trans (List.drop_sublist _ _))
    (List.sorted_insertionSort _ _)

/-- Without valid worker coordinates the page keeps the createdAt
descending order of the store query. -/
theorem getAvailableJobs_sorted_of_noloc
    {st : SysState} {workerId : Nat} {w : Worker}
    {page limit : Option Nat} {skill : Option String} {maxDistance : Option Rat}
    {urgency sortBy : Option String} {dist : Nat → Option Rat}
    (hw : findById st.workers workerId = some w) (hloc : w.hasValidLocation = false) :
    List.Sorted (fun a b => recLe a b = true)
      (getAvailableJobs st workerId page limit skill maxDistance urgency sortBy dist).2 := by
  simp only [getAvailableJobs, hw]
  rw [if_neg (by simp [hloc])]
  refine List.Pairwise.sublist ((List.take_sublist _ _).trans (List.drop_sublist _ _)) ?_
  refine List.Pairwise.map _ ?_ (List.sorted_insertionSort _ _)
  intro a b hab
  exact hab

/-- C10 counterexample: with sortBy absent the destructuring default is
the string distance, so for a worker with valid coordinates the results
are ordered by distance, not by recency: job 11 is newer than job 10 yet
the older, closer job 10 comes first, and the response is not sorted
newest-first. -/
theorem C10_counterexample :
    sampleJob.createdAt < newerJob.createdAt ∧
    (getAvailableJobs twoJobState 1 none none none none none none twoJobDist).2.map
      (fun o => o.id) = [10, 11] ∧
    ¬ List.Sorted (fun a b => recLe a b = true)
      (getAvailableJobs twoJobState 1 none none none none none none twoJobDist).2 := by
  refine ⟨by decide, by decide, by decide⟩

/-- C10 (amended): every returned job is posted and unassigned; the
"For you" filter keeps only jobs whose skill the worker has, while
"All Services" behaves exactly like no skill filter; annotated distances
never exceed maxDistance (default 25); and the ordering is: by distance
whenever the worker has valid coordinates and sortBy is distance or
omitted (the destructuring default is distance, not recency), and by
recency (newest first) when sortBy is explicitly some other value or the
worker has no valid coordinates. -/
theorem C10_available_jobs
    (st : SysState) (workerId : Nat) (w : Worker)
    (page limit : Option Nat) (skill : Option String) (maxDistance : Option Rat)
    (urgency sortBy : Option String) (dist : Nat → Option Rat)
    (hw : findById st.workers workerId = some w) :
    (∀ o ∈ (getAvailableJobs st workerId page limit skill maxDistance
        urgency sortBy dist).2,
      o.job.status = JobStatus.posted ∧ o.job.workerId = none) ∧
    (skill = some "For you" →
      ∀ o ∈ (getAvailableJobs st workerId page limit skill maxDistance
          urgency sortBy dist).2,
        o.job.skill ∈ w.skills) ∧
    (getAvailableJobs st workerId page limit (some "All Services") maxDistance
        urgency sortBy dist =
      getAvailableJobs st workerId page limit none maxDistance urgency sortBy dist) ∧
    (∀ o ∈ (getAvailableJobs st workerId page limit skill maxDistance
        urgency sortBy dist).2,
      o.distance = none ∨ ∃ d : Rat, o.distance = some d ∧ d ≤ maxDistance.getD 25) ∧
    ((sortBy = none ∨ sortBy = some "distance") → w.hasValidLocation = true →
      List.Sorted (fun a b => distLe a b = true)
        (getAvailableJobs st workerId page limit skill maxDistance
          urgency sortBy dist).2) ∧
    (((∃ s : String, sortBy = some s ∧ s ≠ "distance") ∨ w.hasValidLocation = false) →
      List.Sorted (fun a b => recLe a b = true)
        (getAvailableJobs st workerId page limit skill maxDistance
          urgency sortBy dist).2) := by
  refine ⟨?_, ?_, ?_, ?_, ?_, ?_⟩
  · intro o ho
    obtain ⟨pr, _, hjob, hfilt, _⟩ := mem_getAvailableJobs hw ho
    simp only [Bool.and_eq_true] at hfilt
    rw [hjob]
    exact of_decide_eq_true hfilt.1.1
  · intro hskill o ho
    subst hskill
    obtain ⟨pr, _, hjob, hfilt, _⟩ := mem_getAvailableJobs hw ho
    simp only [Bool.and_eq_true] at hfilt
    rw [hjob]
    exact skillFilter_forYou hfilt.1.2
  · have hfun : ∀ p : Nat × Job,
        skillFilter (some "All Services") w.skills p.2 =
          skillFilter none w.skills p.2 :=
      fun p => skillFilter_allServices w.skills p.2
    simp only [getAvailableJobs, hw, hfun]
  · intro o ho
    obtain ⟨_, _, _, _, hd⟩ := mem_getAvailableJobs hw ho
    exact hd
  · intro hsort hloc
    have hs := @getAvailableJobs_sorted_of_loc st workerId w page limit skill
      maxDistance urgency sortBy dist hw hloc
    have hq : sortBy.getD "distance" = "distance" := by
      rcases hsort with h | h <;> rw [h] <;> rfl
    rw [hq] at hs
    refine List.Pairwise.imp (fun hab => ?_) hs
    have hconv : ∀ x y : JobOut, availLe "distance" x y = distLe x y := by
      intro x y
      unfold availLe
      rw [if_pos rfl]
    rwa [hconv] at hab
  · intro hcase
    cases hb : w.hasValidLocation with
    | false => exact getAvailableJobs_sorted_of_noloc hw hb
    | true =>
      rcases hcase with ⟨s, hsby, hsne⟩ | hfalse
      · have hs := @getAvailableJobs_sorted_of_loc st workerId w page limit skill
          maxDistance urgency sortBy dist hw hb
        rw [hsby]
        rw [hsby] at hs
        simp only [Option.getD_some] at hs
        refine List.Pairwise.imp (fun hab => ?_) hs
        have hconv : ∀ x y : JobOut, availLe s x y = recLe x y := by
          intro x y
          unfold availLe
          rw [if_neg hsne]
        rwa [hconv] at hab
      · rw [hfalse] at hb
        cases hb

/-- Closed evaluation of C10: with sortBy omitted and a located worker
the returned page for the two-job store is sorted by the distance
comparator. -/
theorem C10_available_jobs_witness :
    List.Sorted (fun a b => distLe a b = true)
      (getAvailableJobs twoJobState 1 none none none none none none twoJobDist).2 :=
  (C10_available_jobs twoJobState 1 samplePlumber none none none none none none
    twoJobDist (by rfl)).2.2.2.2.1 (Or.inl rfl) (by rfl)

end QuickBackend
